import Mathlib

/-!
# Trigger task plugin (warpdrive) and manifest helpers

A shallow embedding of `pkg/microservice/warpdrive/core/service/taskplugin/trigger.go`
and of `pkg/util/yaml.go`.

Conventions of the embedding.

* The plugin is a pointer receiver in Go; every method that mutates it is a function
  from the state before the call to the state after it (together with its return value).
* A Go `error` is `Option String`: `none` is `nil`, `some msg` is an error whose
  `Error()` is `msg`.
* A Go `(string, error)` result is a pair `String × Option String`.
* Go `int` is the 64-bit two's complement integer: arithmetic is done in `Int` and
  wrapped by `wrapInt`.
* The collaborators the plugin calls (storage resolver, JSON marshaller, HTTP client,
  clock) are the fields of `HostEnv`; every theorem quantifies over all of them.
* The receiver `p`, `p.Task`, `p.Log` and the `pipelineTask` argument are taken to be
  non-nil; log lines are not part of the state.
-/

namespace Zadig

/-! ## Data model -/

/-- Modelled from the spec: the declaration of `config.Status` and of its constants
`StatusCreated`, `StatusRunning`, `StatusPassed`, `StatusFailed`, `StatusTimeout`,
`StatusCancelled` is not among the sources; the status vocabulary of the spec has
exactly these six symbols. -/
inductive Status where
  | Created
  | Running
  | Passed
  | Failed
  | Timeout
  | Cancelled
  deriving DecidableEq, Repr

/-- The payload of a resolved callback: `task.CallbackPayload`, of which the plugin
writes the field `QRCodeURL`. -/
structure CallbackPayload where
  QRCodeURL : String
  deriving DecidableEq, Repr

/-- The Trigger step record `task.Trigger`: the fields the plugin reads or writes. -/
structure Trigger where
  URL : String
  Path : String
  Timeout : Int
  IsRestart : Bool
  IsCallback : Bool
  Enabled : Bool
  TaskStatus : Status
  Error : String
  StartTime : Int
  EndTime : Int
  CallbackType : String
  CallbackPayload : Option CallbackPayload
  deriving DecidableEq, Repr

/-- The cancellation handle `p.cancel` that `Run` obtains from `context.WithCancel`:
live until it is called, released afterwards. -/
inductive CancelFunc where
  | live
  | released
  deriving DecidableEq, Repr

/-- The plugin `TriggerTaskPlugin`. `cancel = none` is the nil function value the
field holds before `Run`. -/
structure TriggerTaskPlugin where
  Name : String
  KubeNamespace : String
  JobName : String
  FileName : String
  Task : Trigger
  cancel : Option CancelFunc
  deriving DecidableEq, Repr

/-- One build argument of `pipelineTask.TaskArgs.BuildArgs`. -/
structure KeyVal where
  Key : String
  Value : String
  deriving DecidableEq, Repr

/-- The pipeline task `task.Task` handed to `Run`: the fields the plugin reads. -/
structure PipelineTask where
  ProductName : String
  PipelineName : String
  TaskID : Int
  ServiceName : String
  StorageURI : String
  BuildArgs : List KeyVal
  deriving DecidableEq, Repr

/-- The storage descriptor `s3.S3`: the fields `getS3Storage` reads. -/
structure S3 where
  Endpoint : String
  Subfolder : String
  deriving DecidableEq, Repr

/-- The output descriptor `task.TaskOutput`; `Type_` is its field `Type`. -/
structure TaskOutput where
  Type_ : String
  Value : String
  deriving DecidableEq, Repr

/-- The webhook body `task.WebhookPayload` before marshalling. -/
structure WebhookPayload where
  EventName : String
  ProjectName : String
  TaskName : String
  TaskID : Int
  TaskOutput : List TaskOutput
  TaskEnvs : List KeyVal
  deriving DecidableEq, Repr

/-- One call of `httpClient.Post`: the client's host URL, the relative URL, the header
set by `SetHeader` and the body set by `SetBody`. -/
structure PostRequest where
  HostURL : String
  url : String
  header : String × String
  body : String
  deriving DecidableEq, Repr

/-- The collaborators of one `Run`: the storage resolver
`s3.NewS3StorageFromEncryptedURI` (a descriptor, or an error message), `json.Marshal`
on the webhook payload (the body together with the error), `httpClient.Post` (the
error; the response is discarded by the caller) and `time.Now().Unix()`. -/
structure HostEnv where
  NewS3StorageFromEncryptedURI : String → Except String S3
  Marshal : WebhookPayload → String × Option String
  Post : PostRequest → Option String
  now : Int

/-! ## Machine integers -/

/-- Wrap an integer into the range of Go's 64-bit `int`. -/
def wrapInt (x : Int) : Int := (x + 2 ^ 63) % 2 ^ 64 - 2 ^ 63

/-! ## The plugin's methods -/

/-- The constant `TriggerTaskTimeout`: sixty minutes, in seconds. -/
def TriggerTaskTimeout : Int := 60 * 60 * 1

/-- The method `TaskTimeout`: the returned integer and the plugin after the call. -/
def TaskTimeout (p : TriggerTaskPlugin) : Int × TriggerTaskPlugin :=
  let p1 : TriggerTaskPlugin :=
    if p.Task.Timeout = 0 then
      { p with Task := { p.Task with Timeout := TriggerTaskTimeout } }
    else
      if !p.Task.IsRestart then
        { p with Task := { p.Task with Timeout := wrapInt (p.Task.Timeout * 60) } }
      else p
  (p1.Task.Timeout, p1)

/-- The integers returned by `n` successive calls of `TaskTimeout`, first call first. -/
def TaskTimeoutCalls : Nat → TriggerTaskPlugin → List Int
  | 0, _ => []
  | n + 1, p => (TaskTimeout p).1 :: TaskTimeoutCalls n (TaskTimeout p).2

/-- The method `SetTriggerStatusCompleted`, at clock reading `now`. -/
def SetTriggerStatusCompleted (now : Int) (p : TriggerTaskPlugin) (status : Status) :
    TriggerTaskPlugin :=
  { p with Task := { p.Task with TaskStatus := status, EndTime := now } }

/-- The method `getS3Storage`: the artifact path and the error. `fmt.Sprintf` with
`%s` verbs on strings is concatenation. -/
def getS3Storage (env : HostEnv) (pipelineTask : PipelineTask) : String × Option String :=
  match env.NewS3StorageFromEncryptedURI pipelineTask.StorageURI with
  | .error err => ("", some err)
  | .ok store =>
    let subPath :=
      if store.Subfolder ≠ "" then
        store.Subfolder ++ "/" ++ pipelineTask.PipelineName ++ "/" ++
          pipelineTask.ServiceName ++ "/" ++ "artifact"
      else
        pipelineTask.PipelineName ++ "/" ++ pipelineTask.ServiceName ++ "/" ++ "artifact"
    (store.Endpoint ++ "/" ++ subPath ++ "/artifact.tar.gz", none)

/-- The deferred function of `Run` when `err` is not nil. -/
def runFailed (p : TriggerTaskPlugin) (err : String) : TriggerTaskPlugin :=
  { p with Task := { p.Task with TaskStatus := Status.Failed, Error := err } }

/-- The request `Run` posts for a given body. -/
def runRequest (p : TriggerTaskPlugin) (body : String) : PostRequest :=
  { HostURL := p.Task.URL, url := p.Task.Path,
    header := ("X-Zadig-Event", "Workflow"), body := body }

/-- The webhook payload `Run` builds from the pipeline task and the artifact path. -/
def runPayload (pipelineTask : PipelineTask) (artifactPath : String) : WebhookPayload :=
  { EventName := "workflow",
    ProjectName := pipelineTask.ProductName,
    TaskName := pipelineTask.PipelineName,
    TaskID := pipelineTask.TaskID,
    TaskOutput := [{ Type_ := "object_storage", Value := artifactPath }],
    TaskEnvs := pipelineTask.BuildArgs }

/-- The method `Run`: the plugin after the call and the POST requests issued, in
order. The arguments `ctx`, `pipelineCtx` and `serviceName` of the source are not
read by the body (`ctx` is overwritten before use). The error of `json.Marshal` is
overwritten by the result of the POST, as in the source. -/
def Run (env : HostEnv) (p : TriggerTaskPlugin) (pipelineTask : PipelineTask) :
    TriggerTaskPlugin × List PostRequest :=
  let p1 : TriggerTaskPlugin := { p with cancel := some CancelFunc.live }
  match getS3Storage env pipelineTask with
  | (_, some err) => (runFailed p1 err, [])
  | (artifactPath, none) =>
    let body := (env.Marshal (runPayload pipelineTask artifactPath)).1
    let req := runRequest p1 body
    match env.Post req with
    | some err => (runFailed p1 err, [req])
    | none =>
      if !p1.Task.IsCallback then
        (SetTriggerStatusCompleted env.now p1 Status.Passed, [req])
      else (p1, [req])

/-- The request `Run` posts once the resolver has succeeded: built from the step's URL
and path and from the marshalled payload that carries the artifact path. -/
def runPost (env : HostEnv) (p : TriggerTaskPlugin) (pipelineTask : PipelineTask) :
    PostRequest :=
  runRequest p (env.Marshal (runPayload pipelineTask (getS3Storage env pipelineTask).1)).1

/-- What the single `select` of `Wait` observes: the host context is done, the
timeout channel has fired, or neither is ready (the `default` case). When both
channels are ready Go picks one of the two. -/
inductive WaitEvent where
  | ctxDone
  | timeout
  | neither
  deriving DecidableEq, Repr

/-- The body of `Wait` up to its return statement: `TaskTimeout` is called to arm the
timer, then the `select` runs once (every case returns, so the `for` never iterates
a second time). -/
def waitBody (ev : WaitEvent) (p : TriggerTaskPlugin) : TriggerTaskPlugin :=
  let p1 := (TaskTimeout p).2
  match ev with
  | .ctxDone => { p1 with Task := { p1.Task with TaskStatus := Status.Cancelled } }
  | .timeout =>
    { p1 with Task := { p1.Task with TaskStatus := Status.Timeout, Error := "timeout" } }
  | .neither =>
    { p1 with Task := { p1.Task with
        CallbackType := "wechat_callback",
        CallbackPayload := some { QRCodeURL := "nihao" },
        TaskStatus := Status.Passed } }

/-- The method `Wait`. The deferred `p.cancel()` runs at the return: it releases the
handle, and panics (`none`) when the handle is nil because `Run` never set it. -/
def Wait (ev : WaitEvent) (p : TriggerTaskPlugin) : Option TriggerTaskPlugin :=
  let p2 := waitBody ev p
  match p2.cancel with
  | none => none
  | some _ => some { p2 with cancel := some CancelFunc.released }

/-- The method `IsTaskDone`. -/
def IsTaskDone (p : TriggerTaskPlugin) : Bool :=
  if p.Task.TaskStatus ≠ Status.Created ∧ p.Task.TaskStatus ≠ Status.Running then true
  else false

/-- The terminal statuses of the state machine. -/
def terminal (s : Status) : Prop :=
  s = Status.Passed ∨ s = Status.Failed ∨ s = Status.Timeout ∨ s = Status.Cancelled

instance (s : Status) : Decidable (terminal s) := by
  unfold terminal; infer_instance

/-- The method `IsTaskFailed`. -/
def IsTaskFailed (p : TriggerTaskPlugin) : Bool :=
  if p.Task.TaskStatus = Status.Failed ∨ p.Task.TaskStatus = Status.Timeout ∨
      p.Task.TaskStatus = Status.Cancelled then true
  else false

/-- The method `SetTask`: the returned error and the plugin after the call.
`ToTriggerTask`, which projects the untyped attribute map onto a Trigger record, is
not among the sources and is a parameter: it yields the record, or the decode error. -/
def SetTask {Payload : Type} (ToTriggerTask : Payload → Except String Trigger)
    (p : TriggerTaskPlugin) (t : Payload) : Option String × TriggerTaskPlugin :=
  match ToTriggerTask t with
  | .error err => (some err, p)
  | .ok task => (none, { p with Task := task })

/-- The method `GetTask`. -/
def GetTask (p : TriggerTaskPlugin) : Trigger := p.Task

/-! ## Manifest helpers: `pkg/util/yaml.go`

Go strings are byte strings; the embedding uses `String`, that is valid UTF-8, on
which cutting at a valid UTF-8 separator is the same by bytes and by characters. -/

/-- The constant `separator`. -/
def separator : String := "\n---\n"

/-- The function `CombineManifests`: the loop writes `separator + y` to the builder
for each `y` in turn, and the builder's content is returned. -/
def CombineManifests (yamls : List String) : String :=
  yamls.foldl (fun builder y => builder ++ (separator ++ y)) ""

/-- Put a character in front of the first piece of a split. -/
def consHead (c : Char) : List (List Char) → List (List Char)
  | [] => [[c]]
  | d :: ds => (c :: d) :: ds

/-- The scan of `strings.Split` for a non-empty separator: the pieces between the
leftmost, non-overlapping occurrences of `sep`. The counter is the number of
characters of an occurrence still to be skipped. -/
def splitAux (sep : List Char) : Nat → List Char → List (List Char)
  | _, [] => [[]]
  | k + 1, _ :: rest => splitAux sep k rest
  | 0, c :: rest =>
    if sep.isPrefixOf (c :: rest) then [] :: splitAux sep (sep.length - 1) rest
    else consHead c (splitAux sep 0 rest)

/-- The library function `strings.Split`: with an empty separator the string is cut
after each character, otherwise at each occurrence of the separator. -/
def Split (s sep : String) : List String :=
  if sep.data = [] then s.data.map (fun c => String.mk [c])
  else (splitAux sep.data 0 s.data).map String.mk

/-- The function `GetImageName`; `none` is the index-out-of-range panic of
`imageNameArr[len(imageNameArr)-1]` on an empty slice. -/
def GetImageName (image : String) : Option String :=
  let imageNameStr := ""
  let imageArr := Split image ":"
  match imageArr with
  | [] => some imageNameStr
  | first :: _ =>
    let imageNameArr := Split first "/"
    imageNameArr[imageNameArr.length - 1]?

/-- Modelled from the spec: `releaseutil.SplitManifests`, the splitter of the helm
library that `SplitManifests` defers to, is not among the sources. The spec describes
it as a YAML-stream splitter that yields the non-empty documents of the stream, the
documents being what the manifest separator separates. -/
def releaseutil.SplitManifests (content : String) : List String :=
  (Split content separator).filter (fun d => d ≠ "")

/-- The order in which a `range` visits the documents the splitter yields. The spec
does not guarantee that it is the order of the stream: any rearrangement may occur. -/
structure RangeOrder where
  visit : List String → List String
  perm : ∀ l, (visit l).Perm l

/-- The function `SplitManifests`: the loop appends to `res` every document that
`range manifests` visits. -/
def SplitManifests (order : RangeOrder) (content : String) : List String :=
  (order.visit (releaseutil.SplitManifests content)).foldl (fun res m => res ++ [m]) []

/-- The documents are visited in the order of the stream. -/
def streamOrder : RangeOrder :=
  { visit := fun l => l, perm := fun l => List.Perm.refl l }

/-- The documents are visited last first. -/
def reverseOrder : RangeOrder :=
  { visit := List.reverse, perm := fun l => List.reverse_perm l }

/-- A document is clean for a separator when no occurrence of the separator begins
inside it, also when a separator follows it: the document does not contain the
separator and no end of it is a beginning of one. -/
def cleanFor (sep : List Char) : List Char → Bool
  | [] => true
  | c :: rest => !(sep.isPrefixOf (c :: rest ++ sep)) && cleanFor sep rest

/-! ## Sample inputs -/

/-- A Trigger record as `SetTask` leaves it for a first run: one minute of timeout. -/
def sampleTrigger : Trigger :=
  { URL := "http://hook.example.com", Path := "/notify", Timeout := 1,
    IsRestart := false, IsCallback := false, Enabled := true,
    TaskStatus := Status.Created, Error := "", StartTime := 0, EndTime := 0,
    CallbackType := "", CallbackPayload := none }

/-- A plugin on which `Run` has not been called yet. -/
def samplePlugin : TriggerTaskPlugin :=
  { Name := "trigger", KubeNamespace := "", JobName := "job", FileName := "file",
    Task := sampleTrigger, cancel := none }

/-- A pipeline task. -/
def samplePipelineTask : PipelineTask :=
  { ProductName := "shop", PipelineName := "deploy", TaskID := 7,
    ServiceName := "cart", StorageURI := "enc", BuildArgs := [] }

/-- A host in which the resolver, the marshaller and the POST all succeed. -/
def okEnv : HostEnv :=
  { NewS3StorageFromEncryptedURI := fun _ => .ok { Endpoint := "s3.local", Subfolder := "" },
    Marshal := fun _ => ("body", none),
    Post := fun _ => none,
    now := 1000 }

/-- A host in which the storage resolver fails. -/
def badStorageEnv : HostEnv :=
  { okEnv with NewS3StorageFromEncryptedURI := fun _ => .error "bad storage uri" }

/-- A host in which the POST fails. -/
def badPostEnv : HostEnv :=
  { okEnv with Post := fun _ => some "connection refused" }

/-- A restarted step whose stored timeout is already 120 seconds. -/
def restartPlugin : TriggerTaskPlugin :=
  { samplePlugin with Task := { sampleTrigger with Timeout := 120, IsRestart := true } }

/-- A step without a stored timeout. -/
def unsetTimeoutPlugin : TriggerTaskPlugin :=
  { samplePlugin with Task := { sampleTrigger with Timeout := 0 } }

/-- A callback step as a successful `Run` leaves it: still running, handle attached. -/
def callbackPlugin : TriggerTaskPlugin :=
  { samplePlugin with
    Task := { sampleTrigger with IsCallback := true, TaskStatus := Status.Running },
    cancel := some CancelFunc.live }

/-- A step that has already failed, handle attached. -/
def failedPlugin : TriggerTaskPlugin :=
  { samplePlugin with
    Task := { sampleTrigger with TaskStatus := Status.Failed, Error := "connection refused" },
    cancel := some CancelFunc.live }

/-- A step that has already been cancelled. -/
def cancelledPlugin : TriggerTaskPlugin :=
  { samplePlugin with Task := { sampleTrigger with TaskStatus := Status.Cancelled } }

/-- A restarted step without a stored timeout. -/
def restartUnsetPlugin : TriggerTaskPlugin :=
  { samplePlugin with Task := { sampleTrigger with Timeout := 0, IsRestart := true } }

/-- A decoder of attribute maps that knows one key: it fails when `url` is missing. -/
def sampleToTriggerTask (t : List (String × String)) : Except String Trigger :=
  match t.lookup "url" with
  | none => .error "convert interface to Trigger error: url is missing"
  | some u => .ok { sampleTrigger with URL := u }

/-! ## Frame lemmas for `TaskTimeout` -/

theorem TaskTimeout_status (p : TriggerTaskPlugin) :
    (TaskTimeout p).2.Task.TaskStatus = p.Task.TaskStatus := by
  unfold TaskTimeout; dsimp only; split_ifs <;> rfl

theorem TaskTimeout_error (p : TriggerTaskPlugin) :
    (TaskTimeout p).2.Task.Error = p.Task.Error := by
  unfold TaskTimeout; dsimp only; split_ifs <;> rfl

theorem TaskTimeout_cancel (p : TriggerTaskPlugin) :
    (TaskTimeout p).2.cancel = p.cancel := by
  unfold TaskTimeout; dsimp only; split_ifs <;> rfl

theorem TaskTimeout_isRestart (p : TriggerTaskPlugin) :
    (TaskTimeout p).2.Task.IsRestart = p.Task.IsRestart := by
  unfold TaskTimeout; dsimp only; split_ifs <;> rfl

theorem TaskTimeout_stored (p : TriggerTaskPlugin) :
    (TaskTimeout p).2.Task.Timeout = (TaskTimeout p).1 := by
  unfold TaskTimeout; rfl

/-- On a restarted step the stored value is non-zero after the first call. -/
theorem TaskTimeout_restart_ne_zero (p : TriggerTaskPlugin) (h : p.Task.IsRestart = true) :
    (TaskTimeout p).1 ≠ 0 := by
  unfold TaskTimeout TriggerTaskTimeout; dsimp only
  split_ifs with h0 h1
  · simp
  · simp [h] at h1
  · exact h0

/-- On a restarted step with a non-zero stored value a call changes nothing. -/
theorem TaskTimeout_restart_fixed (p : TriggerTaskPlugin) (h : p.Task.IsRestart = true)
    (h0 : p.Task.Timeout ≠ 0) : TaskTimeout p = (p.Task.Timeout, p) := by
  unfold TaskTimeout; simp [h, h0]

/-- On a restarted step with a non-zero stored value every call returns that value. -/
theorem TaskTimeoutCalls_restart_fixed (n : Nat) (p : TriggerTaskPlugin)
    (h : p.Task.IsRestart = true) (h0 : p.Task.Timeout ≠ 0) :
    ∀ v ∈ TaskTimeoutCalls n p, v = p.Task.Timeout := by
  induction n with
  | zero => intro v hv; simp [TaskTimeoutCalls] at hv
  | succ n ih =>
    intro v hv
    simp only [TaskTimeoutCalls, TaskTimeout_restart_fixed p h h0, List.mem_cons] at hv
    rcases hv with hv | hv
    · exact hv
    · exact ih v hv

/-- On a restarted step all of the calls return what the first call returns. -/
theorem TaskTimeoutCalls_restart (n : Nat) (p : TriggerTaskPlugin)
    (h : p.Task.IsRestart = true) :
    ∀ v ∈ TaskTimeoutCalls n p, v = (TaskTimeout p).1 := by
  cases n with
  | zero => intro v hv; simp [TaskTimeoutCalls] at hv
  | succ n =>
    intro v hv
    simp only [TaskTimeoutCalls, List.mem_cons] at hv
    rcases hv with hv | hv
    · exact hv
    · have h1 : (TaskTimeout p).2.Task.IsRestart = true := by
        rw [TaskTimeout_isRestart]; exact h
      have h2 : (TaskTimeout p).2.Task.Timeout ≠ 0 := by
        rw [TaskTimeout_stored]; exact TaskTimeout_restart_ne_zero p h
      have := TaskTimeoutCalls_restart_fixed n _ h1 h2 v hv
      rw [this, TaskTimeout_stored]

/-- The wrap with its powers of two written out. -/
theorem wrapInt_eq (x : Int) :
    wrapInt x =
      (x + 9223372036854775808) % 18446744073709551616 - 9223372036854775808 := by
  unfold wrapInt; norm_num

/-- Wrapping lands in the 64-bit range. -/
theorem wrapInt_range (x : Int) :
    -9223372036854775808 ≤ wrapInt x ∧ wrapInt x < 9223372036854775808 := by
  rw [wrapInt_eq]
  omega

/-- Wrapping leaves a value of the 64-bit range alone. -/
theorem wrapInt_of_range (x : Int) (hlo : -9223372036854775808 ≤ x)
    (hhi : x < 9223372036854775808) : wrapInt x = x := by
  rw [wrapInt_eq]
  omega

/-- A multiple of `2 ^ 64` inside the 64-bit range is zero. -/
theorem eq_zero_of_multiple (a k : Int) (h : a = 18446744073709551616 * k)
    (hlo : -9223372036854775808 ≤ a) (hhi : a < 9223372036854775808) : a = 0 := by
  omega

/-- Scaling a non-zero 64-bit value by 60 never gives the value back, wrapped or not. -/
theorem wrapInt_scale_ne (a : Int) (h0 : a ≠ 0)
    (hlo : -9223372036854775808 ≤ a) (hhi : a < 9223372036854775808) :
    wrapInt (a * 60) ≠ a := by
  rw [wrapInt_eq]
  intro h
  have h1 : (a * 60 + 9223372036854775808) % 18446744073709551616
      = a + 9223372036854775808 := by linarith
  have h2 : (18446744073709551616 : Int) ∣
      (a * 60 + 9223372036854775808) - (a + 9223372036854775808) :=
    Int.dvd_sub_of_emod_eq h1
  have h3 : (18446744073709551616 : Int) ∣ 59 * a := by
    have e : (a * 60 + 9223372036854775808) - (a + 9223372036854775808) = 59 * a := by
      ring
    rwa [e] at h2
  have hc : IsCoprime (18446744073709551616 : Int) 59 := by
    rw [Int.isCoprime_iff_gcd_eq_one]; norm_num
  obtain ⟨k, hk⟩ := hc.dvd_of_dvd_mul_left h3
  exact h0 (eq_zero_of_multiple a k hk hlo hhi)

/-- On a first run the second call never returns what the first call returned. -/
theorem TaskTimeout_first_run_second_call (p : TriggerTaskPlugin)
    (h : p.Task.IsRestart = false) :
    (TaskTimeout (TaskTimeout p).2).1 ≠ (TaskTimeout p).1 := by
  by_cases h0 : p.Task.Timeout = 0
  · have e : TaskTimeout p =
        (3600, { p with Task := { p.Task with Timeout := 3600 } }) := by
      unfold TaskTimeout TriggerTaskTimeout; simp [h0]
    rw [e]
    unfold TaskTimeout wrapInt; simp [h]
  · have e : TaskTimeout p = (wrapInt (p.Task.Timeout * 60),
        { p with Task := { p.Task with Timeout := wrapInt (p.Task.Timeout * 60) } }) := by
      unfold TaskTimeout; simp [h0, h]
    rw [e]
    by_cases h1 : wrapInt (p.Task.Timeout * 60) = 0
    · unfold TaskTimeout TriggerTaskTimeout; simp [h1]
    · have hr := wrapInt_range (p.Task.Timeout * 60)
      have hne := wrapInt_scale_ne _ h1 hr.1 hr.2
      unfold TaskTimeout; simp [h1, h]
      exact hne

/-! ## Case analysis of `Run` and frame lemmas for `Wait` -/

theorem getS3Storage_error (env : HostEnv) (pt : PipelineTask) (e : String)
    (h : env.NewS3StorageFromEncryptedURI pt.StorageURI = .error e) :
    getS3Storage env pt = ("", some e) := by
  unfold getS3Storage; rw [h]

theorem getS3Storage_ok (env : HostEnv) (pt : PipelineTask) (store : S3)
    (h : env.NewS3StorageFromEncryptedURI pt.StorageURI = .ok store) :
    (getS3Storage env pt).2 = none := by
  unfold getS3Storage; rw [h]

/-- The body of `Run` with the posted request named. -/
theorem Run_eq (env : HostEnv) (p : TriggerTaskPlugin) (pt : PipelineTask) :
    Run env p pt =
      match (getS3Storage env pt).2 with
      | some err => (runFailed { p with cancel := some CancelFunc.live } err, [])
      | none =>
        match env.Post (runPost env p pt) with
        | some err =>
          (runFailed { p with cancel := some CancelFunc.live } err, [runPost env p pt])
        | none =>
          if p.Task.IsCallback = true then
            ({ p with cancel := some CancelFunc.live }, [runPost env p pt])
          else
            (SetTriggerStatusCompleted env.now { p with cancel := some CancelFunc.live }
              Status.Passed, [runPost env p pt]) := by
  unfold Run runPost
  generalize getS3Storage env pt = g
  obtain ⟨a, b⟩ := g
  cases b with
  | some err => rfl
  | none =>
    simp only [runRequest]
    cases env.Post _ with
    | some err => rfl
    | none => cases p.Task.IsCallback <;> rfl

/-- When the resolver fails `Run` runs its deferred function with the resolver's
error and posts nothing. -/
theorem Run_resolver_failed (env : HostEnv) (p : TriggerTaskPlugin) (pt : PipelineTask)
    (e : String) (h : env.NewS3StorageFromEncryptedURI pt.StorageURI = .error e) :
    Run env p pt = (runFailed { p with cancel := some CancelFunc.live } e, []) := by
  rw [Run_eq, getS3Storage_error env pt e h]

/-- When the resolver succeeds and the POST fails `Run` runs its deferred function
with the error of the POST. -/
theorem Run_post_failed (env : HostEnv) (p : TriggerTaskPlugin) (pt : PipelineTask)
    (store : S3) (e : String)
    (h : env.NewS3StorageFromEncryptedURI pt.StorageURI = .ok store)
    (hp : env.Post (runPost env p pt) = some e) :
    Run env p pt =
      (runFailed { p with cancel := some CancelFunc.live } e, [runPost env p pt]) := by
  rw [Run_eq, getS3Storage_ok env pt store h, hp]

/-- When the resolver and the POST succeed on a step that is not a callback step,
`Run` completes the step as passed. -/
theorem Run_ok_sync (env : HostEnv) (p : TriggerTaskPlugin) (pt : PipelineTask)
    (store : S3) (h : env.NewS3StorageFromEncryptedURI pt.StorageURI = .ok store)
    (hp : env.Post (runPost env p pt) = none) (hc : p.Task.IsCallback = false) :
    Run env p pt =
      (SetTriggerStatusCompleted env.now { p with cancel := some CancelFunc.live }
        Status.Passed, [runPost env p pt]) := by
  rw [Run_eq, getS3Storage_ok env pt store h, hp]
  simp [hc]

/-- When the resolver and the POST succeed on a callback step, `Run` only attaches
the cancellation handle. -/
theorem Run_ok_callback (env : HostEnv) (p : TriggerTaskPlugin) (pt : PipelineTask)
    (store : S3) (h : env.NewS3StorageFromEncryptedURI pt.StorageURI = .ok store)
    (hp : env.Post (runPost env p pt) = none) (hc : p.Task.IsCallback = true) :
    Run env p pt = ({ p with cancel := some CancelFunc.live }, [runPost env p pt]) := by
  rw [Run_eq, getS3Storage_ok env pt store h, hp]
  simp [hc]

/-- The four ways `Run` can go. -/
theorem Run_cases (env : HostEnv) (p : TriggerTaskPlugin) (pt : PipelineTask) :
    (∃ e, env.NewS3StorageFromEncryptedURI pt.StorageURI = .error e ∧
      Run env p pt = (runFailed { p with cancel := some CancelFunc.live } e, [])) ∨
    (∃ store e, env.NewS3StorageFromEncryptedURI pt.StorageURI = .ok store ∧
      env.Post (runPost env p pt) = some e ∧
      Run env p pt =
        (runFailed { p with cancel := some CancelFunc.live } e, [runPost env p pt])) ∨
    (∃ store, env.NewS3StorageFromEncryptedURI pt.StorageURI = .ok store ∧
      env.Post (runPost env p pt) = none ∧ p.Task.IsCallback = false ∧
      Run env p pt =
        (SetTriggerStatusCompleted env.now { p with cancel := some CancelFunc.live }
          Status.Passed, [runPost env p pt])) ∨
    (∃ store, env.NewS3StorageFromEncryptedURI pt.StorageURI = .ok store ∧
      env.Post (runPost env p pt) = none ∧ p.Task.IsCallback = true ∧
      Run env p pt = ({ p with cancel := some CancelFunc.live }, [runPost env p pt])) := by
  cases h : env.NewS3StorageFromEncryptedURI pt.StorageURI with
  | error e => exact Or.inl ⟨e, rfl, Run_resolver_failed env p pt e h⟩
  | ok store =>
    cases hp : env.Post (runPost env p pt) with
    | some e => exact Or.inr (Or.inl ⟨store, e, rfl, rfl, Run_post_failed env p pt store e h hp⟩)
    | none =>
      cases hc : p.Task.IsCallback with
      | false => exact Or.inr (Or.inr (Or.inl ⟨store, rfl, rfl, rfl, Run_ok_sync env p pt store h hp hc⟩))
      | true => exact Or.inr (Or.inr (Or.inr ⟨store, rfl, rfl, rfl, Run_ok_callback env p pt store h hp hc⟩))

/-- After `Run` the cancellation handle is attached and live, however `Run` went. -/
theorem Run_cancel (env : HostEnv) (p : TriggerTaskPlugin) (pt : PipelineTask) :
    (Run env p pt).1.cancel = some CancelFunc.live := by
  rcases Run_cases env p pt with ⟨e, -, h⟩ | ⟨s, e, -, -, h⟩ | ⟨s, -, -, -, h⟩ | ⟨s, -, -, -, h⟩ <;>
    rw [h] <;> rfl

theorem waitBody_cancel (ev : WaitEvent) (p : TriggerTaskPlugin) :
    (waitBody ev p).cancel = p.cancel := by
  cases ev <;> simp [waitBody, TaskTimeout_cancel]

theorem waitBody_ctxDone (p : TriggerTaskPlugin) :
    (waitBody WaitEvent.ctxDone p).Task.TaskStatus = Status.Cancelled ∧
    (waitBody WaitEvent.ctxDone p).Task.Error = p.Task.Error := by
  simp [waitBody, TaskTimeout_error]

theorem waitBody_timeout (p : TriggerTaskPlugin) :
    (waitBody WaitEvent.timeout p).Task.TaskStatus = Status.Timeout ∧
    (waitBody WaitEvent.timeout p).Task.Error = "timeout" := by
  simp [waitBody]

theorem waitBody_neither (p : TriggerTaskPlugin) :
    (waitBody WaitEvent.neither p).Task.TaskStatus = Status.Passed ∧
    (waitBody WaitEvent.neither p).Task.Error = p.Task.Error := by
  simp [waitBody, TaskTimeout_error]

/-- With the handle attached `Wait` returns: the state its body wrote, handle released. -/
theorem Wait_of_cancel (ev : WaitEvent) (p : TriggerTaskPlugin) (c : CancelFunc)
    (h : p.cancel = some c) :
    Wait ev p = some { waitBody ev p with cancel := some CancelFunc.released } := by
  have hc : (waitBody ev p).cancel = some c := by rw [waitBody_cancel, h]
  unfold Wait
  simp only []
  rw [hc]

/-- Without the handle the deferred call of `Wait` panics. -/
theorem Wait_of_nil_cancel (ev : WaitEvent) (p : TriggerTaskPlugin) (h : p.cancel = none) :
    Wait ev p = none := by
  have hc : (waitBody ev p).cancel = none := by rw [waitBody_cancel, h]
  unfold Wait
  simp only []
  rw [hc]

/-! ## `TaskTimeout`: repeated calls and the first call -/

/-- C2, as stated, fails: on a first run (`is_restart = false`) with one minute stored,
two successive calls of `TaskTimeout` return 60 and then 3600. -/
theorem TaskTimeout_second_call_rescales :
    samplePlugin.Task.Timeout = 1 ∧ samplePlugin.Task.IsRestart = false ∧
    TaskTimeoutCalls 2 samplePlugin = [60, 3600] ∧
    ¬ (∀ v ∈ TaskTimeoutCalls 2 samplePlugin, v = (TaskTimeout samplePlugin).1) := by
  decide

/-- C2, amended: `TaskTimeout` is idempotent exactly on restarted steps. For every
Trigger record, every one of `N ≥ 1` successive calls returns the integer the first
call returned if and only if `is_restart` is true. -/
theorem TaskTimeout_idempotent_iff_restart (p : TriggerTaskPlugin) :
    (∀ N, 1 ≤ N → ∀ v ∈ TaskTimeoutCalls N p, v = (TaskTimeout p).1) ↔
      p.Task.IsRestart = true := by
  constructor
  · intro h
    by_contra hr
    have hf : p.Task.IsRestart = false := by simpa using hr
    have h2 := h 2 (by decide) (TaskTimeout (TaskTimeout p).2).1
      (by simp [TaskTimeoutCalls])
    exact TaskTimeout_first_run_second_call p hf h2
  · intro hr N _ v hv
    exact TaskTimeoutCalls_restart N p hr v hv

/-- C3: the first call of `TaskTimeout` returns 3600 when the stored timeout is 0,
the stored timeout times 60 on a first run when that product fits the machine
integer, and the stored timeout itself on a restart; the stored timeout afterwards is
the returned value. -/
theorem TaskTimeout_first_call (p : TriggerTaskPlugin) :
    (p.Task.Timeout = 0 → (TaskTimeout p).1 = 3600) ∧
    (p.Task.Timeout ≠ 0 → p.Task.IsRestart = false →
      -2 ^ 63 ≤ p.Task.Timeout * 60 → p.Task.Timeout * 60 < 2 ^ 63 →
      (TaskTimeout p).1 = p.Task.Timeout * 60) ∧
    (p.Task.Timeout ≠ 0 → p.Task.IsRestart = true →
      (TaskTimeout p).1 = p.Task.Timeout) ∧
    (TaskTimeout p).2.Task.Timeout = (TaskTimeout p).1 := by
  refine ⟨?_, ?_, ?_, TaskTimeout_stored p⟩
  · intro h0
    unfold TaskTimeout TriggerTaskTimeout; simp [h0]
  · intro h0 hr hlo hhi
    have hw : wrapInt (p.Task.Timeout * 60) = p.Task.Timeout * 60 :=
      wrapInt_of_range _ (by norm_num at hlo; exact hlo) (by norm_num at hhi; exact hhi)
    unfold TaskTimeout; simp [h0, hr, hw]
  · intro h0 hr
    unfold TaskTimeout; simp [h0, hr]

/-- C3 at concrete records: stored 0 gives 3600, stored 1 on a first run gives 60,
stored 120 on a restart gives 120, and each value is stored back. -/
theorem TaskTimeout_first_call_witness :
    (TaskTimeout unsetTimeoutPlugin).1 = 3600 ∧
    (TaskTimeout samplePlugin).1 = 1 * 60 ∧
    (TaskTimeout restartPlugin).1 = 120 ∧
    (TaskTimeout restartPlugin).2.Task.Timeout = (TaskTimeout restartPlugin).1 :=
  ⟨(TaskTimeout_first_call unsetTimeoutPlugin).1 (by decide),
   (TaskTimeout_first_call samplePlugin).2.1 (by decide) (by decide) (by decide) (by decide),
   (TaskTimeout_first_call restartPlugin).2.2.1 (by decide) (by decide),
   (TaskTimeout_first_call restartPlugin).2.2.2⟩

/-! ## `Run` followed by `Wait` -/

/-- C1, as stated, fails: from a Created step with an empty error, a `Run` whose
storage resolver fails followed by a `Wait` that observes the host cancellation ends
Cancelled with the resolver's error still in place, so a non-empty error does not
imply Failed or Timeout. -/
theorem Run_Wait_cancelled_keeps_error :
    samplePlugin.Task.TaskStatus = Status.Created ∧ samplePlugin.Task.Error = "" ∧
    ∃ q, Wait WaitEvent.ctxDone (Run badStorageEnv samplePlugin samplePipelineTask).1 = some q ∧
      q.Task.TaskStatus = Status.Cancelled ∧ q.Task.Error = "bad storage uri" ∧
      ¬ (q.Task.Error ≠ "" ↔
        (q.Task.TaskStatus = Status.Failed ∨ q.Task.TaskStatus = Status.Timeout)) := by
  refine ⟨rfl, rfl, _, rfl, ?_⟩
  decide

/-- C1, amended: from a step with an empty error (Created, Running or any other
status), for every outcome of the resolver, the marshaller and the POST and every
event `Wait` observes, `Wait` returns after `Run` with a terminal status; the error is
non-empty if and only if the status is Failed or Timeout whenever the resolver and the
POST both succeeded or `Wait` observed its timeout; and when `Wait` observes the
cancellation the status is Cancelled and the error is the one `Run` left, which is
the resolver's error when the resolver failed. -/
theorem Run_Wait_terminal (env : HostEnv) (p : TriggerTaskPlugin) (pt : PipelineTask)
    (ev : WaitEvent) (he : p.Task.Error = "") :
    ∃ q, Wait ev (Run env p pt).1 = some q ∧
      terminal q.Task.TaskStatus ∧
      ((((∃ store, env.NewS3StorageFromEncryptedURI pt.StorageURI = .ok store) ∧
            env.Post (runPost env p pt) = none) ∨ ev = WaitEvent.timeout) →
        (q.Task.Error ≠ "" ↔
          (q.Task.TaskStatus = Status.Failed ∨ q.Task.TaskStatus = Status.Timeout))) ∧
      (ev = WaitEvent.ctxDone →
        q.Task.TaskStatus = Status.Cancelled ∧
          q.Task.Error = (Run env p pt).1.Task.Error ∧
          ∀ e, env.NewS3StorageFromEncryptedURI pt.StorageURI = .error e →
            q.Task.Error = e) := by
  refine ⟨_, Wait_of_cancel ev _ _ (Run_cancel env p pt), ?_, ?_, ?_⟩
  · cases ev
    · simp [terminal, (waitBody_ctxDone _).1]
    · simp [terminal, (waitBody_timeout _).1]
    · simp [terminal, (waitBody_neither _).1]
  · have hrun : ((∃ store, env.NewS3StorageFromEncryptedURI pt.StorageURI = .ok store) ∧
          env.Post (runPost env p pt) = none) → (Run env p pt).1.Task.Error = "" := by
      rintro ⟨⟨store, hst⟩, hpost⟩
      cases hc : p.Task.IsCallback with
      | false => rw [Run_ok_sync env p pt store hst hpost hc]; exact he
      | true => rw [Run_ok_callback env p pt store hst hpost hc]; exact he
    intro hcond
    cases ev
    · rcases hcond with hok | hev
      · simp [(waitBody_ctxDone _).1, (waitBody_ctxDone _).2, hrun hok]
      · cases hev
    · simp [(waitBody_timeout _).1, (waitBody_timeout _).2]
    · rcases hcond with hok | hev
      · simp [(waitBody_neither _).1, (waitBody_neither _).2, hrun hok]
      · cases hev
  · intro hev
    subst hev
    refine ⟨(waitBody_ctxDone _).1, (waitBody_ctxDone _).2, ?_⟩
    intro e hres
    show (waitBody WaitEvent.ctxDone (Run env p pt).1).Task.Error = e
    rw [(waitBody_ctxDone _).2, Run_resolver_failed env p pt e hres]
    rfl

/-- C1 at a concrete input: a Created step with an empty error, a host in which
everything succeeds, and a `Wait` that observes its timeout: the step ends Timeout
with a non-empty error. -/
theorem Run_Wait_terminal_witness :
    samplePlugin.Task.Error = "" ∧
    ∃ q, Wait WaitEvent.timeout (Run okEnv samplePlugin samplePipelineTask).1 = some q ∧
      terminal q.Task.TaskStatus ∧
      (q.Task.Error ≠ "" ↔
        (q.Task.TaskStatus = Status.Failed ∨ q.Task.TaskStatus = Status.Timeout)) :=
  ⟨rfl,
    match Run_Wait_terminal okEnv samplePlugin samplePipelineTask WaitEvent.timeout rfl with
    | ⟨q, hq, ht, hiff, _⟩ => ⟨q, hq, ht, hiff (Or.inr rfl)⟩⟩

/-! ## `Wait` on its own -/

/-- C4, as stated, fails: a step that is already Failed when `Wait` is entered, with
the host cancellation observed, leaves `Wait` as Cancelled; the earlier terminal
status does not stand. -/
theorem Wait_cancel_replaces_failed :
    terminal failedPlugin.Task.TaskStatus ∧
    ∃ q, Wait WaitEvent.ctxDone failedPlugin = some q ∧
      q.Task.TaskStatus = Status.Cancelled ∧
      q.Task.TaskStatus ≠ failedPlugin.Task.TaskStatus := by
  refine ⟨by decide, _, rfl, rfl, ?_⟩
  decide

/-- C4, amended: `Wait` does not look at the status it finds, terminal or not. With
the cancellation handle attached `Wait` returns; an observed host cancellation
replaces the status by Cancelled and an observed timeout replaces it by Timeout, so
the status found at entry stands only where it already was that very status. -/
theorem Wait_replaces_status (p : TriggerTaskPlugin) (c : CancelFunc)
    (hc : p.cancel = some c) :
    (∃ q, Wait WaitEvent.ctxDone p = some q ∧ q.Task.TaskStatus = Status.Cancelled ∧
      (q.Task.TaskStatus = p.Task.TaskStatus ↔ p.Task.TaskStatus = Status.Cancelled)) ∧
    (∃ q, Wait WaitEvent.timeout p = some q ∧ q.Task.TaskStatus = Status.Timeout ∧
      (q.Task.TaskStatus = p.Task.TaskStatus ↔ p.Task.TaskStatus = Status.Timeout)) := by
  refine ⟨⟨_, Wait_of_cancel _ p c hc, (waitBody_ctxDone p).1, ?_⟩,
    ⟨_, Wait_of_cancel _ p c hc, (waitBody_timeout p).1, ?_⟩⟩
  · show (waitBody WaitEvent.ctxDone p).Task.TaskStatus = _ ↔ _
    rw [(waitBody_ctxDone p).1]
    exact eq_comm
  · show (waitBody WaitEvent.timeout p).Task.TaskStatus = _ ↔ _
    rw [(waitBody_timeout p).1]
    exact eq_comm

/-- C4 at a concrete input: the step that has already failed. -/
theorem Wait_replaces_status_witness :
    failedPlugin.cancel = some CancelFunc.live ∧
    (∃ q, Wait WaitEvent.ctxDone failedPlugin = some q ∧
      q.Task.TaskStatus = Status.Cancelled ∧
      (q.Task.TaskStatus = failedPlugin.Task.TaskStatus ↔
        failedPlugin.Task.TaskStatus = Status.Cancelled)) ∧
    (∃ q, Wait WaitEvent.timeout failedPlugin = some q ∧
      q.Task.TaskStatus = Status.Timeout ∧
      (q.Task.TaskStatus = failedPlugin.Task.TaskStatus ↔
        failedPlugin.Task.TaskStatus = Status.Timeout)) :=
  ⟨rfl, Wait_replaces_status failedPlugin CancelFunc.live rfl⟩

/-- C5, the code at the failing input: a callback step that is Running when `Wait` is
entered, with one minute of timeout, no cancellation and no callback. The timer of 60
seconds has just been armed, so the `select` takes its `default` case: `Wait` returns
with status Passed, an empty error and the placeholder callback fields. -/
theorem Wait_callback_default_passes :
    callbackPlugin.Task.IsCallback = true ∧
    callbackPlugin.Task.TaskStatus = Status.Running ∧
    (TaskTimeout callbackPlugin).1 = 60 ∧
    ∃ q, Wait WaitEvent.neither callbackPlugin = some q ∧
      q.Task.TaskStatus = Status.Passed ∧ q.Task.Error = "" ∧
      q.Task.CallbackType = "wechat_callback" ∧
      q.Task.CallbackPayload = some { QRCodeURL := "nihao" } := by
  refine ⟨rfl, rfl, by decide, _, rfl, rfl, rfl, rfl, rfl⟩

/-- C9: whenever `Wait` returns after observing the host cancellation the status is
Cancelled and the error is the one found at entry; whenever it returns after observing
its timeout the status is Timeout and the error is exactly "timeout"; and `Wait`
returns, on every event, exactly when the cancellation handle is attached. -/
theorem Wait_cancelled_and_timeout (p : TriggerTaskPlugin) :
    (∀ q, Wait WaitEvent.ctxDone p = some q →
      q.Task.TaskStatus = Status.Cancelled ∧ q.Task.Error = p.Task.Error) ∧
    (∀ q, Wait WaitEvent.timeout p = some q →
      q.Task.TaskStatus = Status.Timeout ∧ q.Task.Error = "timeout") ∧
    (∀ ev, (∃ q, Wait ev p = some q) ↔ p.cancel ≠ none) := by
  have key : ∀ ev q, Wait ev p = some q → q.Task = (waitBody ev p).Task := by
    intro ev q hq
    cases hc : p.cancel with
    | none => rw [Wait_of_nil_cancel ev p hc] at hq; cases hq
    | some c =>
      rw [Wait_of_cancel ev p c hc] at hq
      cases hq
      rfl
  refine ⟨?_, ?_, ?_⟩
  · intro q hq
    rw [key _ q hq]
    exact waitBody_ctxDone p
  · intro q hq
    rw [key _ q hq]
    exact waitBody_timeout p
  · intro ev
    cases hc : p.cancel with
    | none => simp [Wait_of_nil_cancel ev p hc]
    | some c => simp [Wait_of_cancel ev p c hc]

/-- C9 at a concrete input: the callback step left Running by `Run`, on both events. -/
theorem Wait_cancelled_and_timeout_witness :
    (∃ q, Wait WaitEvent.ctxDone callbackPlugin = some q ∧
      q.Task.TaskStatus = Status.Cancelled ∧ q.Task.Error = callbackPlugin.Task.Error) ∧
    (∃ q, Wait WaitEvent.timeout callbackPlugin = some q ∧
      q.Task.TaskStatus = Status.Timeout ∧ q.Task.Error = "timeout") :=
  ⟨⟨_, rfl, (Wait_cancelled_and_timeout callbackPlugin).1 _ rfl⟩,
   ⟨_, rfl, (Wait_cancelled_and_timeout callbackPlugin).2.1 _ rfl⟩⟩

/-! ## `Run` on its own -/

/-- C6, as stated, fails: `Run` on a step that is already Cancelled, in a host where
the resolver and the POST succeed, issues the POST, sets the status to Passed and
stamps the end time. -/
theorem Run_on_cancelled_step_posts :
    terminal cancelledPlugin.Task.TaskStatus ∧
    (Run okEnv cancelledPlugin samplePipelineTask).2 =
      [runPost okEnv cancelledPlugin samplePipelineTask] ∧
    (Run okEnv cancelledPlugin samplePipelineTask).1.Task.TaskStatus = Status.Passed ∧
    (Run okEnv cancelledPlugin samplePipelineTask).1.Task.TaskStatus ≠
      cancelledPlugin.Task.TaskStatus ∧
    (Run okEnv cancelledPlugin samplePipelineTask).1.Task.EndTime ≠
      cancelledPlugin.Task.EndTime := by
  decide

/-- C6, amended: `Run` has no guard on the status it finds, so on an already-terminal
step it does what it does on any step. It posts exactly when the resolver succeeds;
a resolver failure gives Failed with the resolver's error and leaves the end time; a
POST failure gives Failed with the error of the POST; success on a step that is not a
callback step gives Passed and stamps the end time; success on a callback step writes
nothing. Status, error and end time after `Run` are what they were before it exactly
when `Run` writes nothing or writes what is there already: the resolver and the POST
succeed on a callback step; or they succeed on a step that is not a callback step and
was Passed with the current time as end time; or one of them fails with the message
the step, already Failed, has as its error. `Run` is a no-op that posts nothing
exactly in the last case with the resolver failing. -/
theorem Run_without_status_guard (env : HostEnv) (p : TriggerTaskPlugin)
    (pt : PipelineTask) :
    ((Run env p pt).2 = [] ↔
      ∃ e, env.NewS3StorageFromEncryptedURI pt.StorageURI = .error e) ∧
    (∀ e, env.NewS3StorageFromEncryptedURI pt.StorageURI = .error e →
      (Run env p pt).1.Task.TaskStatus = Status.Failed ∧
      (Run env p pt).1.Task.Error = e ∧
      (Run env p pt).1.Task.EndTime = p.Task.EndTime) ∧
    (∀ store e, env.NewS3StorageFromEncryptedURI pt.StorageURI = .ok store →
      env.Post (runPost env p pt) = some e →
      (Run env p pt).2 = [runPost env p pt] ∧
      (Run env p pt).1.Task.TaskStatus = Status.Failed ∧
      (Run env p pt).1.Task.Error = e ∧
      (Run env p pt).1.Task.EndTime = p.Task.EndTime) ∧
    (∀ store, env.NewS3StorageFromEncryptedURI pt.StorageURI = .ok store →
      env.Post (runPost env p pt) = none → p.Task.IsCallback = false →
      (Run env p pt).2 = [runPost env p pt] ∧
      (Run env p pt).1.Task.TaskStatus = Status.Passed ∧
      (Run env p pt).1.Task.Error = p.Task.Error ∧
      (Run env p pt).1.Task.EndTime = env.now) ∧
    (∀ store, env.NewS3StorageFromEncryptedURI pt.StorageURI = .ok store →
      env.Post (runPost env p pt) = none → p.Task.IsCallback = true →
      (Run env p pt).2 = [runPost env p pt] ∧
      (Run env p pt).1.Task.TaskStatus = p.Task.TaskStatus ∧
      (Run env p pt).1.Task.Error = p.Task.Error ∧
      (Run env p pt).1.Task.EndTime = p.Task.EndTime) ∧
    (((Run env p pt).1.Task.TaskStatus = p.Task.TaskStatus ∧
        (Run env p pt).1.Task.Error = p.Task.Error ∧
        (Run env p pt).1.Task.EndTime = p.Task.EndTime) ↔
      ((∃ e, env.NewS3StorageFromEncryptedURI pt.StorageURI = .error e ∧
          p.Task.TaskStatus = Status.Failed ∧ p.Task.Error = e) ∨
        (∃ store e, env.NewS3StorageFromEncryptedURI pt.StorageURI = .ok store ∧
          env.Post (runPost env p pt) = some e ∧
          p.Task.TaskStatus = Status.Failed ∧ p.Task.Error = e) ∨
        (∃ store, env.NewS3StorageFromEncryptedURI pt.StorageURI = .ok store ∧
          env.Post (runPost env p pt) = none ∧ p.Task.IsCallback = false ∧
          p.Task.TaskStatus = Status.Passed ∧ p.Task.EndTime = env.now) ∨
        (∃ store, env.NewS3StorageFromEncryptedURI pt.StorageURI = .ok store ∧
          env.Post (runPost env p pt) = none ∧ p.Task.IsCallback = true))) ∧
    (((Run env p pt).2 = [] ∧
        (Run env p pt).1.Task.TaskStatus = p.Task.TaskStatus ∧
        (Run env p pt).1.Task.Error = p.Task.Error ∧
        (Run env p pt).1.Task.EndTime = p.Task.EndTime) ↔
      ∃ e, env.NewS3StorageFromEncryptedURI pt.StorageURI = .error e ∧
        p.Task.TaskStatus = Status.Failed ∧ p.Task.Error = e) := by
  refine ⟨?_, ?_, ?_, ?_, ?_, ?_, ?_⟩
  · rcases Run_cases env p pt with ⟨e, hr, h⟩ | ⟨s, e, hr, -, h⟩ | ⟨s, hr, -, -, h⟩ |
      ⟨s, hr, -, -, h⟩ <;> rw [h] <;> simp [hr]
  · intro e hr
    rw [Run_resolver_failed env p pt e hr]
    exact ⟨rfl, rfl, rfl⟩
  · intro store e hr hp
    rw [Run_post_failed env p pt store e hr hp]
    exact ⟨rfl, rfl, rfl, rfl⟩
  · intro store hr hp hc
    rw [Run_ok_sync env p pt store hr hp hc]
    exact ⟨rfl, rfl, rfl, rfl⟩
  · intro store hr hp hc
    rw [Run_ok_callback env p pt store hr hp hc]
    exact ⟨rfl, rfl, rfl, rfl⟩
  · rcases Run_cases env p pt with ⟨e, hr, h⟩ | ⟨s, e, hr, hp, h⟩ | ⟨s, hr, hp, hc, h⟩ |
      ⟨s, hr, hp, hc, h⟩ <;> rw [h]
    · constructor
      · rintro ⟨h1, h2, -⟩
        exact Or.inl ⟨e, hr, h1.symm, h2.symm⟩
      · rintro (⟨e1, hr1, hs, he⟩ | ⟨s1, e1, hr1, -⟩ | ⟨s1, hr1, -⟩ | ⟨s1, hr1, -⟩)
        · rw [hr] at hr1
          cases hr1
          exact ⟨hs.symm, he.symm, rfl⟩
        · rw [hr] at hr1; cases hr1
        · rw [hr] at hr1; cases hr1
        · rw [hr] at hr1; cases hr1
    · constructor
      · rintro ⟨h1, h2, -⟩
        exact Or.inr (Or.inl ⟨s, e, hr, hp, h1.symm, h2.symm⟩)
      · rintro (⟨e1, hr1, -⟩ | ⟨s1, e1, -, hp1, hs, he⟩ | ⟨s1, -, hp1, -⟩ | ⟨s1, -, hp1, -⟩)
        · rw [hr] at hr1; cases hr1
        · rw [hp] at hp1
          cases hp1
          exact ⟨hs.symm, he.symm, rfl⟩
        · rw [hp] at hp1; cases hp1
        · rw [hp] at hp1; cases hp1
    · constructor
      · rintro ⟨h1, -, h3⟩
        exact Or.inr (Or.inr (Or.inl ⟨s, hr, hp, hc, h1.symm, h3.symm⟩))
      · rintro (⟨e1, hr1, -⟩ | ⟨s1, e1, -, hp1, -⟩ | ⟨s1, -, -, -, hs, ht⟩ | ⟨s1, -, -, hc1⟩)
        · rw [hr] at hr1; cases hr1
        · rw [hp] at hp1; cases hp1
        · exact ⟨hs.symm, rfl, ht.symm⟩
        · rw [hc] at hc1; cases hc1
    · constructor
      · intro _
        exact Or.inr (Or.inr (Or.inr ⟨s, hr, hp, hc⟩))
      · intro _
        exact ⟨rfl, rfl, rfl⟩
  · rcases Run_cases env p pt with ⟨e, hr, h⟩ | ⟨s, e, hr, hp, h⟩ | ⟨s, hr, hp, hc, h⟩ |
      ⟨s, hr, hp, hc, h⟩ <;> rw [h]
    · constructor
      · rintro ⟨-, h1, h2, -⟩
        exact ⟨e, hr, h1.symm, h2.symm⟩
      · rintro ⟨e1, hr1, hs, he⟩
        rw [hr] at hr1
        cases hr1
        exact ⟨rfl, hs.symm, he.symm, rfl⟩
    · constructor
      · rintro ⟨h0, -⟩; cases h0
      · rintro ⟨e1, hr1, -⟩; rw [hr] at hr1; cases hr1
    · constructor
      · rintro ⟨h0, -⟩; cases h0
      · rintro ⟨e1, hr1, -⟩; rw [hr] at hr1; cases hr1
    · constructor
      · rintro ⟨h0, -⟩; cases h0
      · rintro ⟨e1, hr1, -⟩; rw [hr] at hr1; cases hr1

/-- C6 at a concrete step: a step already Failed with the resolver's own message, run
where the resolver fails again, is left as it was and nothing is posted. -/
theorem Run_without_status_guard_witness :
    (Run badStorageEnv
        { samplePlugin with
          Task := { sampleTrigger with
            TaskStatus := Status.Failed, Error := "bad storage uri" } }
        samplePipelineTask).2 = [] ∧
    (Run badStorageEnv
        { samplePlugin with
          Task := { sampleTrigger with
            TaskStatus := Status.Failed, Error := "bad storage uri" } }
        samplePipelineTask).1.Task.TaskStatus = Status.Failed :=
  ⟨((Run_without_status_guard badStorageEnv _ samplePipelineTask).2.2.2.2.2.2.2
      ⟨"bad storage uri", rfl, rfl, rfl⟩).1,
   ((Run_without_status_guard badStorageEnv _ samplePipelineTask).2.2.2.2.2.2.2
      ⟨"bad storage uri", rfl, rfl, rfl⟩).2.1⟩

/-- C7: `Run` ends Failed with the error set to the message of a failure of the
resolver or of the POST if and only if the resolver fails or the POST fails. When the
resolver fails the error is the resolver's and nothing is posted; when the POST fails
the error is that of the POST; when neither fails the error is left unchanged. From a
step that is not already Failed, ending Failed alone is equivalent to one of the two
failing. All of it whatever the marshaller returns. -/
theorem Run_failed_iff (env : HostEnv) (p : TriggerTaskPlugin) (pt : PipelineTask) :
    ((∃ msg,
        (env.NewS3StorageFromEncryptedURI pt.StorageURI = .error msg ∨
          ((∃ store, env.NewS3StorageFromEncryptedURI pt.StorageURI = .ok store) ∧
            env.Post (runPost env p pt) = some msg)) ∧
        (Run env p pt).1.Task.TaskStatus = Status.Failed ∧
        (Run env p pt).1.Task.Error = msg) ↔
      ((∃ e, env.NewS3StorageFromEncryptedURI pt.StorageURI = .error e) ∨
        (∃ e, env.Post (runPost env p pt) = some e))) ∧
    (∀ e, env.NewS3StorageFromEncryptedURI pt.StorageURI = .error e →
      (Run env p pt).1.Task.TaskStatus = Status.Failed ∧
      (Run env p pt).1.Task.Error = e ∧ (Run env p pt).2 = []) ∧
    (∀ store e, env.NewS3StorageFromEncryptedURI pt.StorageURI = .ok store →
      env.Post (runPost env p pt) = some e →
      (Run env p pt).1.Task.TaskStatus = Status.Failed ∧
      (Run env p pt).1.Task.Error = e) ∧
    (∀ store, env.NewS3StorageFromEncryptedURI pt.StorageURI = .ok store →
      env.Post (runPost env p pt) = none →
      (Run env p pt).1.Task.Error = p.Task.Error) ∧
    (p.Task.TaskStatus ≠ Status.Failed →
      ((Run env p pt).1.Task.TaskStatus = Status.Failed ↔
        ((∃ e, env.NewS3StorageFromEncryptedURI pt.StorageURI = .error e) ∨
          (∃ e, env.Post (runPost env p pt) = some e)))) := by
  refine ⟨?_, ?_, ?_, ?_, ?_⟩
  · rcases Run_cases env p pt with ⟨e, hr, h⟩ | ⟨s, e, hr, hp, h⟩ | ⟨s, hr, hp, -, h⟩ |
      ⟨s, hr, hp, -, h⟩
    · constructor
      · intro _; exact Or.inl ⟨e, hr⟩
      · intro _; exact ⟨e, Or.inl hr, by rw [h]; exact ⟨rfl, rfl⟩⟩
    · constructor
      · intro _; exact Or.inr ⟨e, hp⟩
      · intro _; exact ⟨e, Or.inr ⟨⟨s, hr⟩, hp⟩, by rw [h]; exact ⟨rfl, rfl⟩⟩
    · simp [hr, hp]
    · simp [hr, hp]
  · intro e hr
    rw [Run_resolver_failed env p pt e hr]
    exact ⟨rfl, rfl, rfl⟩
  · intro store e hr hp
    rw [Run_post_failed env p pt store e hr hp]
    exact ⟨rfl, rfl⟩
  · intro store hr hp
    cases hc : p.Task.IsCallback with
    | false => rw [Run_ok_sync env p pt store hr hp hc]; rfl
    | true => rw [Run_ok_callback env p pt store hr hp hc]
  · intro hne
    rcases Run_cases env p pt with ⟨e, hr, h⟩ | ⟨s, e, hr, hp, h⟩ | ⟨s, hr, hp, -, h⟩ |
      ⟨s, hr, hp, -, h⟩ <;> rw [h]
    · simp [hr, runFailed]
    · simp [hr, hp, runFailed]
    · simp [hr, hp, SetTriggerStatusCompleted]
    · simp [hr, hp, hne]

/-- C8: when the resolver and the POST both succeed, `Run` on a step that is not a
callback step sets the status to Passed and stamps the end time with the current
time, and `Run` on a callback step leaves status and end time as they were. -/
theorem Run_success (env : HostEnv) (p : TriggerTaskPlugin) (pt : PipelineTask)
    (store : S3) (hr : env.NewS3StorageFromEncryptedURI pt.StorageURI = .ok store)
    (hp : env.Post (runPost env p pt) = none) :
    (p.Task.IsCallback = false →
      (Run env p pt).1.Task.TaskStatus = Status.Passed ∧
      (Run env p pt).1.Task.EndTime = env.now) ∧
    (p.Task.IsCallback = true →
      (Run env p pt).1.Task.TaskStatus = p.Task.TaskStatus ∧
      (Run env p pt).1.Task.EndTime = p.Task.EndTime) := by
  constructor
  · intro hc
    rw [Run_ok_sync env p pt store hr hp hc]
    exact ⟨rfl, rfl⟩
  · intro hc
    rw [Run_ok_callback env p pt store hr hp hc]
    exact ⟨rfl, rfl⟩

/-- C8 at concrete inputs: the plain step passes with end time 1000, the callback step
stays Running with its end time 0. -/
theorem Run_success_witness :
    ((Run okEnv samplePlugin samplePipelineTask).1.Task.TaskStatus = Status.Passed ∧
      (Run okEnv samplePlugin samplePipelineTask).1.Task.EndTime = 1000) ∧
    ((Run okEnv callbackPlugin samplePipelineTask).1.Task.TaskStatus = Status.Running ∧
      (Run okEnv callbackPlugin samplePipelineTask).1.Task.EndTime = 0) :=
  ⟨(Run_success okEnv samplePlugin samplePipelineTask
      { Endpoint := "s3.local", Subfolder := "" } rfl rfl).1 rfl,
   (Run_success okEnv callbackPlugin samplePipelineTask
      { Endpoint := "s3.local", Subfolder := "" } rfl rfl).2 rfl⟩

/-! ## The artifact path -/

/-- C10: on a descriptor with a sub-folder `getS3Storage` returns
endpoint/subfolder/pipeline/service/artifact/artifact.tar.gz, on one without it returns
endpoint/pipeline/service/artifact/artifact.tar.gz, both with a nil error; when the
resolver fails it returns the empty path and the resolver's error. -/
theorem getS3Storage_path (env : HostEnv) (pt : PipelineTask) :
    (∀ store, env.NewS3StorageFromEncryptedURI pt.StorageURI = .ok store →
      store.Subfolder ≠ "" →
      getS3Storage env pt =
        (store.Endpoint ++ "/" ++ store.Subfolder ++ "/" ++ pt.PipelineName ++ "/" ++
          pt.ServiceName ++ "/artifact/artifact.tar.gz", none)) ∧
    (∀ store, env.NewS3StorageFromEncryptedURI pt.StorageURI = .ok store →
      store.Subfolder = "" →
      getS3Storage env pt =
        (store.Endpoint ++ "/" ++ pt.PipelineName ++ "/" ++
          pt.ServiceName ++ "/artifact/artifact.tar.gz", none)) ∧
    (∀ e, env.NewS3StorageFromEncryptedURI pt.StorageURI = .error e →
      getS3Storage env pt = ("", some e)) := by
  have hlit : "/" ++ ("artifact" ++ "/artifact.tar.gz") = "/artifact/artifact.tar.gz" := by
    decide
  refine ⟨?_, ?_, getS3Storage_error env pt⟩
  · intro store hr hsub
    unfold getS3Storage
    rw [hr]
    simp only [hsub, ne_eq, not_false_eq_true, if_true, String.append_assoc, hlit]
  · intro store hr hsub
    unfold getS3Storage
    rw [hr]
    simp only [hsub, ne_eq, not_true_eq_false, if_false, String.append_assoc, hlit]

/-! ## Lemmas on `strings.Split` -/

theorem splitAux_ne_nil (sep : List Char) (k : Nat) (l : List Char) :
    splitAux sep k l ≠ [] := by
  induction l generalizing k with
  | nil => cases k <;> simp [splitAux]
  | cons c rest ih =>
    cases k with
    | zero =>
      rw [splitAux]
      split_ifs
      · simp
      · cases h : splitAux sep 0 rest with
        | nil => exact absurd h (ih 0)
        | cons d ds => simp [consHead]
    | succ k => rw [splitAux]; exact ih k

theorem consHead_append (c : Char) (l m : List (List Char)) (h : l ≠ []) :
    consHead c (l ++ m) = consHead c l ++ m := by
  cases l with
  | nil => exact absurd rfl h
  | cons d ds => rfl

/-- One step of the scan for a separator of one character. -/
theorem splitAux_single_cons (c d : Char) (rest : List Char) :
    splitAux [c] 0 (d :: rest) =
      if c = d then [] :: splitAux [c] 0 rest else consHead d (splitAux [c] 0 rest) := by
  rw [splitAux]
  by_cases h : c = d
  · subst h; simp
  · simp [List.isPrefixOf, h]

/-- A split on one character distributes over an occurrence of that character. -/
theorem splitAux_single_append (c : Char) (a t : List Char) :
    splitAux [c] 0 (a ++ c :: t) = splitAux [c] 0 a ++ splitAux [c] 0 t := by
  induction a with
  | nil => simp [splitAux_single_cons, splitAux]
  | cons d a ih =>
    rw [List.cons_append, splitAux_single_cons, splitAux_single_cons, ih]
    by_cases h : c = d
    · simp [h]
    · simp only [h, if_false]
      exact consHead_append d _ _ (splitAux_ne_nil _ _ _)

/-- A string without the separating character is the one piece of its split. -/
theorem splitAux_single_of_not_mem (c : Char) (y : List Char) (h : c ∉ y) :
    splitAux [c] 0 y = [y] := by
  induction y with
  | nil => simp [splitAux]
  | cons d y ih =>
    have hd : c ≠ d := fun e => h (by simp [e])
    have hy : c ∉ y := fun e => h (by simp [e])
    rw [splitAux_single_cons, ih hy]
    simp [hd, consHead]

/-- Every piece of a split on one character is made of characters of the string and
does not contain the separating character. -/
theorem splitAux_single_pieces (c : Char) (s : List Char) :
    ∀ d ∈ splitAux [c] 0 s, (∀ x ∈ d, x ∈ s) ∧ c ∉ d := by
  induction s with
  | nil => intro d hd; simp [splitAux] at hd; subst hd; simp
  | cons e s ih =>
    intro d hd
    rw [splitAux_single_cons] at hd
    by_cases h : c = e
    · simp only [h, if_true, List.mem_cons] at hd
      rcases hd with hd | hd
      · subst hd; simp
      · have := ih d (h ▸ hd)
        exact ⟨fun x hx => List.mem_cons_of_mem _ (this.1 x hx), this.2⟩
    · simp only [h, if_false] at hd
      cases hs : splitAux [c] 0 s with
      | nil => exact absurd hs (splitAux_ne_nil _ _ _)
      | cons d0 ds =>
        rw [hs] at hd ih
        simp only [consHead, List.mem_cons] at hd
        rcases hd with hd | hd
        · subst hd
          have := ih d0 (by simp)
          refine ⟨?_, ?_⟩
          · intro x hx
            rcases List.mem_cons.1 hx with hx | hx
            · simp [hx]
            · exact List.mem_cons_of_mem _ (this.1 x hx)
          · intro hc
            rcases List.mem_cons.1 hc with hc | hc
            · exact h hc
            · exact this.2 hc
        · have := ih d (by simp [hd])
          exact ⟨fun x hx => List.mem_cons_of_mem _ (this.1 x hx), this.2⟩

/-! ## Lemmas on `GetImageName` -/

/-- The result of `GetImageName` in terms of the two scans: the last piece, cut at
slashes, of the first piece, cut at colons. -/
theorem GetImageName_of_split (image : String) (d : List Char) (ds : List (List Char))
    (h : splitAux [':'] 0 image.data = d :: ds) :
    GetImageName image = ((splitAux ['/'] 0 d).getLast?).map String.mk := by
  have hc : (":" : String).data = [':'] := rfl
  have hs : ("/" : String).data = ['/'] := rfl
  unfold GetImageName Split
  simp only [hc, hs, h, List.map_cons]
  simp [← List.getLast?_eq_getElem?, List.getLast?_map]

/-- Without a colon in front of it, what precedes the first colon is the first piece. -/
theorem GetImageName_before_colon (y t : List Char) (hy : ':' ∉ y) :
    GetImageName (String.mk (y ++ ':' :: t)) =
      ((splitAux ['/'] 0 y).getLast?).map String.mk := by
  have h : splitAux [':'] 0 (String.mk (y ++ ':' :: t)).data =
      y :: splitAux [':'] 0 t := by
    show splitAux [':'] 0 (y ++ ':' :: t) = _
    rw [splitAux_single_append, splitAux_single_of_not_mem _ _ hy]
    rfl
  exact GetImageName_of_split _ _ _ h

/-- Without any colon the whole string is the first piece. -/
theorem GetImageName_no_colon (y : List Char) (hy : ':' ∉ y) :
    GetImageName (String.mk y) = ((splitAux ['/'] 0 y).getLast?).map String.mk :=
  GetImageName_of_split _ _ _ (splitAux_single_of_not_mem _ _ hy)

/-- The last piece of a split at slashes is what follows the last slash. -/
theorem splitAux_slash_getLast (a n : List Char) (hn : '/' ∉ n) :
    (splitAux ['/'] 0 (a ++ '/' :: n)).getLast? = some n := by
  rw [splitAux_single_append, splitAux_single_of_not_mem _ _ hn]
  simp

/-! ## `GetImageName` -/

/-- C12, as stated, fails: with the registry `localhost:5000`, the path `ns`, the name
`nginx` and the tag `stable`, `GetImageName` returns `localhost`, what precedes the
first colon of the whole reference. -/
theorem GetImageName_registry_with_port :
    "nginx" ≠ "" ∧ '/' ∉ "nginx".data ∧ ':' ∉ "nginx".data ∧
    GetImageName ("localhost:5000" ++ "/" ++ "ns" ++ "/" ++ "nginx" ++ ":" ++ "stable") =
      some "localhost" ∧
    GetImageName ("localhost:5000" ++ "/" ++ "ns" ++ "/" ++ "nginx" ++ ":" ++ "stable") ≠
      some "nginx" := by
  decide

/-- C12, amended: for all strings registry, path, name and tag, where name contains
neither a slash nor a colon and neither registry nor path contains a colon,
`GetImageName` of registry/path/name:tag returns name. -/
theorem GetImageName_reference (registry path name tag : String)
    (hr : ':' ∉ registry.data) (hp : ':' ∉ path.data)
    (hn : '/' ∉ name.data) (hc : ':' ∉ name.data) :
    GetImageName (registry ++ "/" ++ path ++ "/" ++ name ++ ":" ++ tag) = some name := by
  have e : registry ++ "/" ++ path ++ "/" ++ name ++ ":" ++ tag =
      String.mk (((registry.data ++ '/' :: path.data) ++ '/' :: name.data) ++
        ':' :: tag.data) := by
    apply String.ext
    have hs : ("/" : String).data = ['/'] := rfl
    have hk : (":" : String).data = [':'] := rfl
    simp [String.data_append, hs, hk]
  have hy : ':' ∉ (registry.data ++ '/' :: path.data) ++ '/' :: name.data := by
    simp [hr, hp, hc]
  rw [e, GetImageName_before_colon _ _ hy, splitAux_slash_getLast _ _ hn]
  rfl

/-- C12 at the reference of the source comment. -/
theorem GetImageName_reference_witness :
    GetImageName ("ccr.ccs.tencentyun.com" ++ "/" ++ "koderover" ++ "/" ++ "nginx" ++ ":" ++
      "stable") = some "nginx" ∧
    GetImageName ("registry.example.com" ++ "/" ++ "ns" ++ "/" ++ "name" ++ ":" ++ "tag") =
      some "name" :=
  ⟨GetImageName_reference "ccr.ccs.tencentyun.com" "koderover" "nginx" "stable"
      (by decide) (by decide) (by decide) (by decide),
   GetImageName_reference "registry.example.com" "ns" "name" "tag"
      (by decide) (by decide) (by decide) (by decide)⟩

/-- C13: on an input without a colon `GetImageName` returns what follows the last
slash, and the whole input when there is no slash. -/
theorem GetImageName_without_colon (image : String) (h : ':' ∉ image.data) :
    (∀ front last : String, image = front ++ "/" ++ last → '/' ∉ last.data →
      GetImageName image = some last) ∧
    ('/' ∉ image.data → GetImageName image = some image) := by
  constructor
  · intro front last he hl
    have e : image = String.mk (front.data ++ '/' :: last.data) := by
      rw [he]
      apply String.ext
      have hs : ("/" : String).data = ['/'] := rfl
      simp [String.data_append, hs]
    have hy : ':' ∉ front.data ++ '/' :: last.data := by
      rw [e] at h; exact h
    rw [e, GetImageName_no_colon _ hy, splitAux_slash_getLast _ _ hl]
    rfl
  · intro hs
    have e : image = String.mk image.data := rfl
    rw [e, GetImageName_no_colon _ h, splitAux_single_of_not_mem _ _ hs]
    rfl

/-- C13 at concrete inputs: `name` gives `name`, the empty input gives the empty
string, and `a/b/name` gives `name`. -/
theorem GetImageName_without_colon_witness :
    GetImageName "name" = some "name" ∧ GetImageName "" = some "" ∧
    GetImageName "a/b/name" = some "name" :=
  ⟨(GetImageName_without_colon "name" (by decide)).2 (by decide),
   (GetImageName_without_colon "" (by decide)).2 (by decide),
   (GetImageName_without_colon "a/b/name" (by decide)).1 "a/b" "name" (by decide)
     (by decide)⟩

/-- C20: `GetImageName` never panics: on every input it returns a string; that string
contains neither a slash nor a colon, and `GetImageName` maps it to itself. -/
theorem GetImageName_total_idempotent (s : String) :
    ∃ r, GetImageName s = some r ∧ '/' ∉ r.data ∧ ':' ∉ r.data ∧
      GetImageName r = some r := by
  cases h : splitAux [':'] 0 s.data with
  | nil => exact absurd h (splitAux_ne_nil _ _ _)
  | cons d ds =>
    have hd := splitAux_single_pieces ':' s.data d (by rw [h]; simp)
    cases hl : (splitAux ['/'] 0 d).getLast? with
    | none =>
      rw [List.getLast?_eq_none_iff] at hl
      exact absurd hl (splitAux_ne_nil _ _ _)
    | some e =>
      have he := splitAux_single_pieces '/' d e (List.mem_of_getLast?_eq_some hl)
      have hcolon : ':' ∉ e := fun hx => hd.2 (he.1 _ hx)
      refine ⟨String.mk e, ?_, he.2, hcolon, ?_⟩
      · rw [GetImageName_of_split s d ds h, hl]; rfl
      · rw [GetImageName_no_colon e hcolon, splitAux_single_of_not_mem _ _ he.2]
        rfl

/-! ## Lemmas on `CombineManifests` and on the split at the manifest separator -/

/-- The builder loop started from any content appends to that content. -/
theorem combine_foldl (acc : String) (ys : List String) :
    ys.foldl (fun builder y => builder ++ (separator ++ y)) acc =
      acc ++ CombineManifests ys := by
  induction ys generalizing acc with
  | nil => simp [CombineManifests]
  | cons y ys ih =>
    unfold CombineManifests
    rw [List.foldl_cons, List.foldl_cons, ih, ih ("" ++ (separator ++ y))]
    simp [String.append_assoc]

theorem CombineManifests_nil : CombineManifests [] = "" := rfl

theorem CombineManifests_cons (y : String) (ys : List String) :
    CombineManifests (y :: ys) = separator ++ y ++ CombineManifests ys := by
  show List.foldl _ ("" ++ (separator ++ y)) ys = _
  rw [combine_foldl]
  simp

theorem CombineManifests_append (xs ys : List String) :
    CombineManifests (xs ++ ys) = CombineManifests xs ++ CombineManifests ys := by
  induction xs with
  | nil => simp [CombineManifests_nil]
  | cons x xs ih => simp [CombineManifests_cons, ih, String.append_assoc]

/-- Whether the separator begins a string is decided by the beginning of the string. -/
theorem isPrefixOf_append_right (sep a t : List Char) (h : sep.length ≤ a.length) :
    sep.isPrefixOf (a ++ t) = sep.isPrefixOf a := by
  induction sep generalizing a with
  | nil => simp
  | cons c sep ih =>
    cases a with
    | nil => simp at h
    | cons d a =>
      have e := ih a (by simpa using h)
      simp only [List.cons_append, List.isPrefixOf]
      show (c == d && sep.isPrefixOf (a ++ t)) = _
      rw [e]

/-- Skipping consumes exactly as many characters as the counter says. -/
theorem splitAux_skip (sep a t : List Char) :
    splitAux sep a.length (a ++ t) = splitAux sep 0 t := by
  induction a with
  | nil => rfl
  | cons d a ih => rw [List.length_cons, List.cons_append, splitAux]; exact ih

/-- A separator at the head of the string closes an empty piece. -/
theorem splitAux_separator (sep t : List Char) (h : sep ≠ []) :
    splitAux sep 0 (sep ++ t) = [] :: splitAux sep 0 t := by
  cases sep with
  | nil => exact absurd rfl h
  | cons c sep =>
    rw [List.cons_append, splitAux]
    have hp : (c :: sep).isPrefixOf (c :: (sep ++ t)) = true := by
      rw [← List.cons_append, List.isPrefixOf_iff_prefix]
      exact List.prefix_append _ _
    rw [if_pos hp]
    simp only [List.length_cons, Nat.add_sub_cancel]
    rw [splitAux_skip]

/-- A clean document in front of a separator is the first piece. -/
theorem splitAux_clean (sep y t : List Char) (h : sep ≠ []) (hy : cleanFor sep y = true) :
    splitAux sep 0 (y ++ (sep ++ t)) = y :: splitAux sep 0 t := by
  induction y with
  | nil => exact splitAux_separator sep t h
  | cons c y ih =>
    simp only [cleanFor, Bool.and_eq_true, Bool.not_eq_true'] at hy
    have hp : sep.isPrefixOf (c :: (y ++ (sep ++ t))) = false := by
      have := isPrefixOf_append_right sep (c :: y ++ sep) t (by simp; omega)
      rw [hy.1] at this
      simpa using this
    rw [List.cons_append, splitAux, hp, ih hy.2]
    simp [consHead]

/-- A clean document at the end of the stream is the last piece. -/
theorem splitAux_clean_end (sep y : List Char) (hy : cleanFor sep y = true) :
    splitAux sep 0 y = [y] := by
  induction y with
  | nil => rfl
  | cons c y ih =>
    simp only [cleanFor, Bool.and_eq_true, Bool.not_eq_true'] at hy
    have hp : sep.isPrefixOf (c :: y) = false := by
      cases hq : sep.isPrefixOf (c :: y) with
      | false => rfl
      | true =>
        rw [List.isPrefixOf_iff_prefix] at hq
        have : sep.isPrefixOf (c :: y ++ sep) = true := by
          rw [List.isPrefixOf_iff_prefix]
          exact hq.trans (List.prefix_append _ _)
        rw [hy.1] at this
        cases this
    rw [splitAux, hp, ih hy.2]
    simp [consHead]

/-- The characters of a combined stream. -/
theorem CombineManifests_data (ys : List String) :
    (CombineManifests ys).data =
      (ys.map (fun y => separator.data ++ y.data)).flatten := by
  induction ys with
  | nil => rfl
  | cons y ys ih => simp [CombineManifests_cons, String.data_append, ih]

/-- Splitting a clean document followed by a combined stream of clean documents gives
back the document and then the documents of the stream. -/
theorem splitAux_stream (y : List Char) (ys : List String)
    (hy : cleanFor separator.data y = true)
    (hys : ∀ x ∈ ys, cleanFor separator.data x.data = true) :
    splitAux separator.data 0
        (y ++ (ys.map (fun x => separator.data ++ x.data)).flatten) =
      y :: ys.map String.data := by
  have hsep : separator.data ≠ [] := by decide
  induction ys generalizing y with
  | nil => simpa using splitAux_clean_end _ y hy
  | cons x xs ih =>
    simp only [List.map_cons, List.flatten_cons, List.append_assoc]
    rw [splitAux_clean _ _ _ hsep hy,
      ih x.data (hys x (by simp)) (fun z hz => hys z (by simp [hz]))]

/-- The pieces of a combined stream of clean documents: an empty leading piece, then
the documents. -/
theorem Split_CombineManifests (ys : List String)
    (hys : ∀ x ∈ ys, cleanFor separator.data x.data = true) :
    Split (CombineManifests ys) separator = "" :: ys := by
  have hsep : separator.data ≠ [] := by decide
  unfold Split
  rw [if_neg hsep, CombineManifests_data]
  have := splitAux_stream [] ys rfl hys
  simp only [List.nil_append] at this
  rw [this]
  simp only [List.map_cons, List.map_map]
  congr 1
  exact List.map_id _

/-- The copy loop of `SplitManifests` returns what the range visits. -/
theorem SplitManifests_eq (order : RangeOrder) (content : String) :
    SplitManifests order content = order.visit (releaseutil.SplitManifests content) := by
  unfold SplitManifests
  generalize order.visit (releaseutil.SplitManifests content) = l
  have : ∀ (acc m : List String), m.foldl (fun res x => res ++ [x]) acc = acc ++ m := by
    intro acc m
    induction m generalizing acc with
    | nil => simp
    | cons x m ih => simp [ih]
  simpa using this [] l

/-! ## `CombineManifests` and `SplitManifests` -/

/-- C14: `CombineManifests` of a list is the concatenation, in list order, of the
separator followed by the document, for each document: the empty list gives the empty
string, a list `x :: xs` gives the separator, then `x`, then the rest combined, so a
non-empty list gives a string that starts with the separator; and combining a
concatenation of lists is concatenating the combined lists. -/
theorem CombineManifests_concat (xs ys : List String) :
    separator = "\n---\n" ∧
    CombineManifests xs = String.join (xs.map (fun x => separator ++ x)) ∧
    CombineManifests [] = "" ∧
    (∀ x, CombineManifests (x :: xs) = separator ++ x ++ CombineManifests xs) ∧
    (xs ≠ [] → ∃ rest, CombineManifests xs = separator ++ rest) ∧
    CombineManifests (xs ++ ys) = CombineManifests xs ++ CombineManifests ys := by
  refine ⟨rfl, ?_, rfl, fun x => CombineManifests_cons x xs, ?_,
    CombineManifests_append xs ys⟩
  · apply String.ext
    rw [CombineManifests_data, String.data_join, List.map_map]
    rfl
  · intro hne
    cases xs with
    | nil => exact absurd rfl hne
    | cons x xs =>
      exact ⟨x ++ CombineManifests xs, by
        rw [CombineManifests_cons, String.append_assoc]⟩

/-- C15, as stated, fails. The range over the documents the splitter yields need not
follow the stream: visited last first, the documents `a` and `b`, neither of them
empty, come back combined as `b` then `a`. And in stream order a document that ends
with a separator comes back without it. -/
theorem CombineManifests_SplitManifests_differs :
    (["a", "b"].filter (fun x => x ≠ "") = ["a", "b"] ∧
      CombineManifests (SplitManifests reverseOrder (CombineManifests ["a", "b"])) =
        "\n---\nb\n---\na" ∧
      CombineManifests (SplitManifests reverseOrder (CombineManifests ["a", "b"])) ≠
        CombineManifests ["a", "b"]) ∧
    (["a\n---\n"].filter (fun x => x ≠ "") = ["a\n---\n"] ∧
      CombineManifests (SplitManifests streamOrder (CombineManifests ["a\n---\n"])) =
        "\n---\na" ∧
      CombineManifests (SplitManifests streamOrder (CombineManifests ["a\n---\n"])) ≠
        CombineManifests ["a\n---\n"]) := by
  decide

/-- C15, amended: for every list of documents in none of which an occurrence of the
separator begins, `SplitManifests` of the combined stream holds exactly the non-empty
documents of the list, in the order in which the range visits them; when that is the
order of the stream, combining them again gives the combined list without its empty
documents. -/
theorem CombineManifests_SplitManifests (xs : List String)
    (h : ∀ x ∈ xs, cleanFor separator.data x.data = true) :
    (∀ order : RangeOrder,
      (SplitManifests order (CombineManifests xs)).Perm (xs.filter (fun x => x ≠ ""))) ∧
    SplitManifests streamOrder (CombineManifests xs) = xs.filter (fun x => x ≠ "") ∧
    CombineManifests (SplitManifests streamOrder (CombineManifests xs)) =
      CombineManifests (xs.filter (fun x => x ≠ "")) := by
  have key : releaseutil.SplitManifests (CombineManifests xs) =
      xs.filter (fun x => x ≠ "") := by
    unfold releaseutil.SplitManifests
    rw [Split_CombineManifests xs h]
    simp [List.filter_cons]
  refine ⟨?_, ?_, ?_⟩
  · intro order
    rw [SplitManifests_eq, key]
    exact order.perm _
  · rw [SplitManifests_eq, key]; rfl
  · rw [SplitManifests_eq, key]; rfl

/-- C15 at a concrete list with an empty document in the middle. -/
theorem CombineManifests_SplitManifests_witness :
    SplitManifests streamOrder (CombineManifests ["a", "", "b: 1\n"]) = ["a", "b: 1\n"] ∧
    CombineManifests (SplitManifests streamOrder (CombineManifests ["a", "", "b: 1\n"])) =
      CombineManifests ["a", "b: 1\n"] :=
  (CombineManifests_SplitManifests ["a", "", "b: 1\n"] (by decide)).2

/-! ## `SetTask` and the status queries -/

/-- C11: when projecting the payload fails, `SetTask` returns the decode error and the
plugin, its Task record included, is what it was before the call; when it succeeds,
`SetTask` returns no error and `GetTask` then returns the projected record. -/
theorem SetTask_atomic {Payload : Type} (ToTriggerTask : Payload → Except String Trigger)
    (p : TriggerTaskPlugin) (t : Payload) :
    (∀ err, ToTriggerTask t = .error err →
      SetTask ToTriggerTask p t = (some err, p)) ∧
    (∀ task, ToTriggerTask t = .ok task →
      (SetTask ToTriggerTask p t).1 = none ∧
      GetTask (SetTask ToTriggerTask p t).2 = task) := by
  constructor
  · intro err h
    unfold SetTask; rw [h]
  · intro task h
    unfold SetTask; rw [h]
    exact ⟨rfl, rfl⟩

/-- C11 at concrete payloads: one without the key the decoder needs, one with it. -/
theorem SetTask_atomic_witness :
    SetTask sampleToTriggerTask callbackPlugin [] =
      (some "convert interface to Trigger error: url is missing", callbackPlugin) ∧
    ((SetTask sampleToTriggerTask callbackPlugin [("url", "http://x")]).1 = none ∧
      GetTask (SetTask sampleToTriggerTask callbackPlugin [("url", "http://x")]).2 =
        { sampleTrigger with URL := "http://x" }) :=
  ⟨(SetTask_atomic sampleToTriggerTask callbackPlugin []).1 _ rfl,
   (SetTask_atomic sampleToTriggerTask callbackPlugin [("url", "http://x")]).2 _ rfl⟩

/-- C16: `IsTaskDone` is true exactly when the status is neither Created nor
Running. -/
theorem IsTaskDone_iff (p : TriggerTaskPlugin) :
    IsTaskDone p = true ↔
      (p.Task.TaskStatus ≠ Status.Created ∧ p.Task.TaskStatus ≠ Status.Running) := by
  unfold IsTaskDone
  split_ifs with h
  · simp [h]
  · simp [h]

/-- C17: `IsTaskFailed` is true exactly when the status is Failed, Timeout or
Cancelled; a failed step is done, and a Passed step is done and not failed. -/
theorem IsTaskFailed_iff (p : TriggerTaskPlugin) :
    (IsTaskFailed p = true ↔
      (p.Task.TaskStatus = Status.Failed ∨ p.Task.TaskStatus = Status.Timeout ∨
        p.Task.TaskStatus = Status.Cancelled)) ∧
    (IsTaskFailed p = true → IsTaskDone p = true) ∧
    (p.Task.TaskStatus = Status.Passed →
      IsTaskDone p = true ∧ IsTaskFailed p = false) := by
  unfold IsTaskFailed IsTaskDone
  cases p.Task.TaskStatus <;> simp

/-! ## `TaskTimeout` on a restarted step -/

/-- C19: on a restarted step, whatever the stored timeout, the second of two
successive calls of `TaskTimeout` returns what the first returned and leaves the stored
timeout as the first call left it. -/
theorem TaskTimeout_restart_second_call (p : TriggerTaskPlugin)
    (h : p.Task.IsRestart = true) :
    (TaskTimeout (TaskTimeout p).2).1 = (TaskTimeout p).1 ∧
    (TaskTimeout (TaskTimeout p).2).2.Task.Timeout = (TaskTimeout p).2.Task.Timeout := by
  have h1 : (TaskTimeout p).2.Task.IsRestart = true := by
    rw [TaskTimeout_isRestart]; exact h
  have h2 : (TaskTimeout p).2.Task.Timeout ≠ 0 := by
    rw [TaskTimeout_stored]; exact TaskTimeout_restart_ne_zero p h
  rw [TaskTimeout_restart_fixed _ h1 h2]
  exact ⟨TaskTimeout_stored p, rfl⟩

/-- C19 at concrete records: a restarted step with 120 stored returns 120 twice, one
with nothing stored returns 3600 twice. -/
theorem TaskTimeout_restart_second_call_witness :
    ((TaskTimeout restartPlugin).1 = 120 ∧
      (TaskTimeout (TaskTimeout restartPlugin).2).1 = (TaskTimeout restartPlugin).1) ∧
    ((TaskTimeout restartUnsetPlugin).1 = 3600 ∧
      (TaskTimeout (TaskTimeout restartUnsetPlugin).2).1 =
        (TaskTimeout restartUnsetPlugin).1) :=
  ⟨⟨by decide, (TaskTimeout_restart_second_call restartPlugin rfl).1⟩,
   ⟨by decide, (TaskTimeout_restart_second_call restartUnsetPlugin rfl).1⟩⟩

end Zadig
